import Mathlib

open scoped List

/-!
Verification development for the Irumoa hybrid recommendation engine.

The Python sources are shallowly embedded:
* `src/recommendation/models.py` — `User`, `Program`, `RecommendationResult`;
* `src/recommendation/rule_based.py` — namespace `RuleBased`;
* `src/recommendation/recommenders/hybrid.py` — namespace `Hybrid`.

Conventions of the embedding:
* calendar dates are day numbers (`Int`); Python `date` values are totally
  ordered and `(d1 - d2).days` is the difference of day numbers, so the
  hidden input `date.today()` becomes an explicit `today : Date` parameter;
* Python floats are modelled as real numbers;
* Python `list.sort(key=..., reverse=True)` is a stable descending sort,
  modelled by `List.mergeSort` with the comparator `resultLE`;
* Python set intersection `set(a) & set(b)` is modelled by `a.dedup.filter
  (· ∈ b)`; CPython's set iteration order is unspecified, so the order of the
  matched categories inside a reason string is modelled as the `dedup` order;
* `RuleBasedRecommender.recommend` passes a `reasons=` keyword to
  `RecommendationResult`, which has no such field; pydantic silently ignores
  unknown keyword arguments, so the embedded result type has no reasons field.
-/

/-- Dates are modelled as day numbers. -/
abbrev Date := Int

/-- Model of `models.User` (pydantic `BaseModel`). -/
structure User where
  userId : Option Int
  department : String
  grade : Int
  interests : List String
  interestFields : List String
deriving DecidableEq, Repr

/-- Boundary validation performed by the pydantic `User` model: `grade` is
declared `Field(..., ge=1, le=7)`, so construction succeeds exactly when
`1 ≤ grade ≤ 7`; any other value raises a validation error. -/
def mkUser (userId : Option Int) (department : String) (grade : Int)
    (interests interestFields : List String) : Except String User :=
  if 1 ≤ grade ∧ grade ≤ 7 then
    Except.ok ⟨userId, department, grade, interests, interestFields⟩
  else
    Except.error ("grade: input should be in the documented range")

/-- Model of `models.Program` (pydantic `BaseModel`). -/
structure Program where
  id : Int
  title : String
  link : String
  content : String
  categories : List String
  departments : List String
  grades : List Int
  appStartDate : Option Date
  appEndDate : Option Date
  postedDate : Option Date
deriving DecidableEq, Repr

/-- Model of `Program.is_deadline_near` with its default window `days = 7`:
true iff the application end date exists and `0 ≤ (end - today).days ≤ 7`. -/
def Program.isDeadlineNear (p : Program) (today : Date) : Bool :=
  match p.appEndDate with
  | none => false
  | some e => decide (0 ≤ e - today ∧ e - today ≤ 7)

/-- Model of `Program.is_application_open`: open iff the start date (when
present) is not in the future and the end date (when present) has not passed. -/
def Program.isApplicationOpen (p : Program) (today : Date) : Bool :=
  if p.appStartDate.any (fun s => decide (today < s)) then false
  else if p.appEndDate.any (fun e => decide (e < today)) then false
  else true

/-- Model of `models.RecommendationResult`: a program together with its final
score.  (The pydantic model has no reasons field; the `reasons=` keyword passed
by the rule-based recommender is silently dropped.) -/
structure RecommendationResult where
  program : Program
  score : ℝ

/-- Comparator used to model Python's stable `sort(key=lambda x: x.score,
reverse=True)`: `a` may come before `b` iff `b.score ≤ a.score`. -/
noncomputable def resultLE (a b : RecommendationResult) : Bool :=
  decide (b.score ≤ a.score)

/-- Distinct elements of `set(user.interests) & set(program.categories)`. -/
def matchingCategories (user : User) (program : Program) : List String :=
  user.interests.dedup.filter (fun c => decide (c ∈ program.categories))

/-- Size of the interest/category intersection
`|set(user.interests) & set(program.categories)|`. -/
def matchCount (user : User) (program : Program) : Nat :=
  (matchingCategories user program).length

namespace RuleBased

/-- Score weights of `RuleBasedRecommender`. -/
def WEIGHT_DEPARTMENT_EXACT : ℝ := 40.0

def WEIGHT_DEPARTMENT_UNRESTRICTED : ℝ := 20.0

def WEIGHT_GRADE_EXACT : ℝ := 30.0

def WEIGHT_GRADE_UNRESTRICTED : ℝ := 15.0

def WEIGHT_INTEREST_PER_MATCH : ℝ := 10.0

def BONUS_DEADLINE_NEAR : ℝ := 10.0

/-- Model of `RuleBasedRecommender._calculate_department_score`. -/
def calculateDepartmentScore (user : User) (program : Program) : ℝ × String :=
  if program.departments = [] then (0.0, "")
  else if user.department ∈ program.departments then
    (WEIGHT_DEPARTMENT_EXACT, "학과 일치: " ++ user.department)
  else if "제한없음" ∈ program.departments then
    (WEIGHT_DEPARTMENT_UNRESTRICTED, "학과 제한 없음")
  else (0.0, "")

/-- Model of `RuleBasedRecommender._get_grade_name`. -/
def getGradeName (grade : Int) : String :=
  if grade = 0 then "제한없음"
  else if grade = 1 then "1학년"
  else if grade = 2 then "2학년"
  else if grade = 3 then "3학년"
  else if grade = 4 then "4학년"
  else if grade = 5 then "5학년"
  else if grade = 6 then "졸업생"
  else if grade = 7 then "대학원생"
  else toString grade ++ "학년"

/-- Model of `RuleBasedRecommender._calculate_grade_score`. -/
def calculateGradeScore (user : User) (program : Program) : ℝ × String :=
  if program.grades = [] then (0.0, "")
  else if user.grade ∈ program.grades then
    (WEIGHT_GRADE_EXACT, "학년 일치: " ++ getGradeName user.grade)
  else if (0 : Int) ∈ program.grades then
    (WEIGHT_GRADE_UNRESTRICTED, "학년 제한 없음")
  else (0.0, "")

/-- Model of `RuleBasedRecommender._calculate_interest_score`:
10 points per distinct matched category, with no cap. -/
def calculateInterestScore (user : User) (program : Program) : ℝ × List String :=
  if user.interests = [] ∨ program.categories = [] then (0.0, [])
  else if matchingCategories user program = [] then (0.0, [])
  else (((matchingCategories user program).length : ℝ) * WEIGHT_INTEREST_PER_MATCH,
    ["관심사 일치: " ++ String.intercalate (", ") (matchingCategories user program)])

/-- Model of `RuleBasedRecommender.calculate_score`: department + grade +
interest terms, plus the deadline-proximity bonus when the application window
closes within 7 days. -/
def calculateScore (user : User) (program : Program) (today : Date) :
    ℝ × List String :=
  let d := calculateDepartmentScore user program
  let g := calculateGradeScore user program
  let i := calculateInterestScore user program
  let base := d.1 + g.1 + i.1
  let reasons := (if d.2 = "" then [] else [d.2]) ++
    (if g.2 = "" then [] else [g.2]) ++ i.2
  if program.isDeadlineNear today then
    match program.appEndDate with
    | some e =>
      (base + BONUS_DEADLINE_NEAR,
        reasons ++ ["마감 임박 (" ++ toString (e - today) ++ "일 남음)"])
    | none => (base + BONUS_DEADLINE_NEAR, reasons)
  else (base, reasons)

/-- The list built by the loop of `RuleBasedRecommender.recommend`, before
sorting and truncation: closed programs are skipped when `includeClosed` is
false, then programs scoring below `minScore` are skipped. -/
noncomputable def scoredResults (user : User) (programs : List Program)
    (includeClosed : Bool) (minScore : ℝ) (today : Date) :
    List RecommendationResult :=
  programs.filterMap (fun p =>
    if ¬includeClosed ∧ ¬p.isApplicationOpen today then none
    else
      let s := (calculateScore user p today).1
      if s < minScore then none else some ⟨p, s⟩)

/-- Model of `RuleBasedRecommender.recommend`: filter, score, stable-sort by
score descending, return the first `limit` results. -/
noncomputable def recommend (user : User) (programs : List Program)
    (limit : Nat) (includeClosed : Bool) (minScore : ℝ) (today : Date) :
    List RecommendationResult :=
  ((scoredResults user programs includeClosed minScore today).mergeSort
    resultLE).take limit

end RuleBased

namespace Hybrid

/-- Score weights of `HybridRecommender`. -/
def WEIGHT_DEPARTMENT_EXACT : ℝ := 40.0

def WEIGHT_DEPARTMENT_UNRESTRICTED : ℝ := 20.0

def WEIGHT_GRADE_EXACT : ℝ := 30.0

def WEIGHT_GRADE_UNRESTRICTED : ℝ := 15.0

def WEIGHT_INTEREST_PER_MATCH : ℝ := 5.0

def MAX_INTEREST_SCORE : ℝ := 30.0

def WEIGHT_RULE_BASED : ℝ := 0.6

def WEIGHT_TF_IDF : ℝ := 0.4

/-- Model of `HybridRecommender._calculate_department_score` (identical to the
rule-based variant's). -/
def calculateDepartmentScore (user : User) (program : Program) : ℝ × String :=
  if program.departments = [] then (0.0, "")
  else if user.department ∈ program.departments then
    (WEIGHT_DEPARTMENT_EXACT, "학과 일치: " ++ user.department)
  else if "제한없음" ∈ program.departments then
    (WEIGHT_DEPARTMENT_UNRESTRICTED, "학과 제한 없음")
  else (0.0, "")

/-- Model of `HybridRecommender._calculate_grade_score` (identical to the
rule-based variant's). -/
def calculateGradeScore (user : User) (program : Program) : ℝ × String :=
  if program.grades = [] then (0.0, "")
  else if user.grade ∈ program.grades then
    (WEIGHT_GRADE_EXACT, "학년 일치: " ++ RuleBased.getGradeName user.grade)
  else if (0 : Int) ∈ program.grades then
    (WEIGHT_GRADE_UNRESTRICTED, "학년 제한 없음")
  else (0.0, "")

/-- Model of `HybridRecommender._calculate_interest_score`: 5 points per
distinct matched category, capped at 30. -/
noncomputable def calculateInterestScore (user : User) (program : Program) :
    ℝ × List String :=
  if user.interests = [] ∨ program.categories = [] then (0.0, [])
  else if matchingCategories user program = [] then (0.0, [])
  else (min (((matchingCategories user program).length : ℝ) *
      WEIGHT_INTEREST_PER_MATCH) MAX_INTEREST_SCORE,
    ["관심사 일치: " ++
      String.intercalate (", ") (matchingCategories user program)])

/-- Model of `HybridRecommender.calculate_score`: department + grade +
interest terms; the hybrid rule component has no deadline bonus and does not
look at the current date. -/
noncomputable def calculateScore (user : User) (program : Program) :
    ℝ × List String :=
  let d := calculateDepartmentScore user program
  let g := calculateGradeScore user program
  let i := calculateInterestScore user program
  (d.1 + g.1 + i.1,
    (if d.2 = "" then [] else [d.2]) ++ (if g.2 = "" then [] else [g.2]) ++ i.2)

/-- Characters kept by the preprocessing regex `[^가-힣a-z0-9\s]` (everything
else is replaced by a space): Hangul syllables, lowercase ASCII letters and
digits. -/
def keptChar (c : Char) : Bool :=
  decide (('가' ≤ c ∧ c ≤ '힣') ∨ ('a' ≤ c ∧ c ≤ 'z') ∨ ('0' ≤ c ∧ c ≤ '9'))

/-- Splits a character list at spaces into its nonempty maximal words
(`acc` holds the current word, reversed). -/
def wordsAux : List Char → List Char → List (List Char)
  | [], acc => if acc = [] then [] else [acc.reverse]
  | c :: rest, acc =>
    if c = ' ' then
      (if acc = [] then wordsAux rest [] else acc.reverse :: wordsAux rest [])
    else wordsAux rest (c :: acc)

/-- The words of a document after normalization: lowercase, replace every
character outside the kept set by a space, and split at spaces.  (Replacing
whitespace characters by `' '` as well is equivalent to the source's two
regex passes, because the second pass collapses every whitespace run into
one plain space before splitting.) -/
def textWords (text : String) : List String :=
  (wordsAux ((text.toList.map Char.toLower).map
    (fun c => if keptChar c then c else ' ')) []).map (fun w => String.mk w)

/-- Model of `HybridRecommender._preprocess_text`: the normalized words
joined by single spaces (= lowercase, strip special characters, collapse
whitespace, strip the ends). -/
def preprocessText (text : String) : String :=
  String.intercalate (" ") (textWords text)

/-- Tokenization performed by `TfidfVectorizer` (default analyzer, token
pattern `\w\w+`, idempotent lowercasing) on a preprocessed document: the
words of at least two characters. -/
def tokenize (text : String) : List String :=
  (textWords text).filter (fun w => decide (2 ≤ w.length))

/-- Adjacent bigrams of a token list, each joined by one space. -/
def bigrams : List String → List String
  | a :: b :: rest => (a ++ " " ++ b) :: bigrams (b :: rest)
  | _ => []

/-- Term occurrences of one document under `ngram_range=(1, 2)`: all unigrams
followed by all bigrams, with multiplicity. -/
def docTerms (text : String) : List String :=
  tokenize text ++ bigrams (tokenize text)

/-- Model of `HybridRecommender._create_user_query`. -/
def createUserQuery (user : User) : String :=
  preprocessText (String.intercalate (" ")
    [user.department,
      String.intercalate (" ") user.interests,
      String.intercalate (" ") user.interestFields])

/-- Model of `HybridRecommender._create_program_text`: title, first 500
characters of the content, categories and departments. -/
def createProgramText (p : Program) : String :=
  preprocessText (String.intercalate (" ")
    [p.title, String.mk (p.content.toList.take 500),
      String.intercalate (" ") p.categories,
      String.intercalate (" ") p.departments])

/-- The corpus vectorized by `fit_transform([user_query] + program_texts)`,
as term-occurrence lists: the user query document first, then one document
per program. -/
def corpusDocs (user : User) (programs : List Program) : List (List String) :=
  docTerms (createUserQuery user) ::
    programs.map (fun p => docTerms (createProgramText p))

/-- The fitted vocabulary: every distinct term of the corpus (`min_df=1`, no
stop words).  The `max_features=1000` cap is not modelled: it only alters the
vocabulary for corpora with more than 1000 distinct terms. -/
def vocabOf (docs : List (List String)) : List String :=
  docs.flatten.dedup

/-- Smoothed inverse document frequency used by `TfidfVectorizer` with its
default `smooth_idf=True`: `ln((1 + n) / (1 + df)) + 1`. -/
noncomputable def idf (docs : List (List String)) (t : String) : ℝ :=
  Real.log ((1 + (docs.length : ℝ)) /
    (1 + (docs.countP (fun d => decide (t ∈ d)) : ℝ))) + 1

/-- TF-IDF weight of term `t` in document `d`: raw count times smoothed idf
(`sublinear_tf=False`). -/
noncomputable def weight (docs : List (List String)) (d : List String)
    (t : String) : ℝ :=
  (d.count t : ℝ) * idf docs t

/-- Inner product of the TF-IDF vectors of two documents over the fitted
vocabulary. -/
noncomputable def dotProduct (docs : List (List String))
    (d1 d2 : List String) : ℝ :=
  ((vocabOf docs).map (fun t => weight docs d1 t * weight docs d2 t)).sum

/-- Cosine similarity of the TF-IDF vectors of two documents.  The row-wise
l2 normalization of `TfidfVectorizer` followed by `cosine_similarity` equals
this quotient; a zero vector yields similarity 0 (in Lean, division by zero
gives 0, matching scikit-learn's safe normalization of zero rows). -/
noncomputable def cosineSim (docs : List (List String))
    (d1 d2 : List String) : ℝ :=
  dotProduct docs d1 d2 /
    (Real.sqrt (dotProduct docs d1 d1) * Real.sqrt (dotProduct docs d2 d2))

/-- The `try` block of `calculate_tfidf_score`: fit the vectorizer on the
corpus and compute the scaled similarities.  With `min_df=1` and no stop-word
list, `fit_transform` fails exactly when the fitted vocabulary is empty
(scikit-learn raises "empty vocabulary"); that raise is modelled by
`Except.error`. -/
noncomputable def vectorizeScores (user : User) (programs : List Program) :
    Except String (List ℝ) :=
  let q := docTerms (createUserQuery user)
  let docs := corpusDocs user programs
  if vocabOf docs = [] then Except.error ("empty vocabulary")
  else Except.ok
    ((programs.map (fun p => docTerms (createProgramText p))).map
      (fun d => 100 * cosineSim docs q d))

/-- Model of `HybridRecommender.calculate_tfidf_score`: empty program list
short-circuits to `[]` before any vectorization; a vectorization failure is
caught by the `except` handler, which returns a zero score per program. -/
noncomputable def calculateTfidfScore (user : User)
    (programs : List Program) : List ℝ :=
  if programs = [] then []
  else
    match vectorizeScores user programs with
    | Except.ok scores => scores
    | Except.error _ => List.replicate programs.length 0.0

/-- Model of `HybridRecommender.calculate_hybrid_score`:
`rule × 0.6 + tfidf × 0.4`. -/
noncomputable def calculateHybridScore (user : User) (program : Program)
    (tfidfScore : ℝ) : ℝ :=
  (calculateScore user program).1 * WEIGHT_RULE_BASED +
    tfidfScore * WEIGHT_TF_IDF

/-- The open/closed pre-filter of `HybridRecommender.recommend`. -/
def openFiltered (programs : List Program) (includeClosed : Bool)
    (today : Date) : List Program :=
  if includeClosed then programs
  else programs.filter (fun p => p.isApplicationOpen today)

/-- The list built by the scoring loop of `HybridRecommender.recommend` over
the already-filtered candidate list: each program is paired with its batch
TF-IDF score, combined, and dropped when the final score is below
`minScore`. -/
noncomputable def scoredResults (user : User) (programs : List Program)
    (minScore : ℝ) : List RecommendationResult :=
  (programs.zip (calculateTfidfScore user programs)).filterMap (fun pt =>
    let s := calculateHybridScore user pt.1 pt.2
    if s < minScore then none else some ⟨pt.1, s⟩)

/-- Model of `HybridRecommender.recommend`: drop closed programs unless
`includeClosed`, short-circuit on an empty candidate set, score, filter by
`minScore`, stable-sort by score descending and return the first `limit`. -/
noncomputable def recommend (user : User) (programs : List Program)
    (limit : Nat) (includeClosed : Bool) (minScore : ℝ) (today : Date) :
    List RecommendationResult :=
  let programs' := openFiltered programs includeClosed today
  if programs' = [] then []
  else
    ((scoredResults user programs' minScore).mergeSort resultLE).take limit

/-- One `score`/`reason` entry of the explanation dictionary. -/
structure ComponentDetail where
  score : ℝ
  reason : String

/-- One weighted component of the explanation dictionary. -/
structure WeightedPart where
  score : ℝ
  weight : ℝ
  weighted : ℝ

/-- The dictionary returned by `HybridRecommender.explain_score`. -/
structure ExplainResult where
  totalScore : ℝ
  ruleBased : WeightedPart
  tfidf : WeightedPart
  department : ComponentDetail
  grade : ComponentDetail
  interests : ComponentDetail

/-- Model of `HybridRecommender.explain_score`: recompute the three rule
terms, compute the TF-IDF score of the single-program corpus
`[user_query, program_text]`, and combine with the hybrid weights. -/
noncomputable def explainScore (user : User) (program : Program) :
    ExplainResult :=
  let d := calculateDepartmentScore user program
  let g := calculateGradeScore user program
  let i := calculateInterestScore user program
  let ruleScore := d.1 + g.1 + i.1
  let tfidfScore := (calculateTfidfScore user [program]).headD 0.0
  let finalScore := ruleScore * WEIGHT_RULE_BASED + tfidfScore * WEIGHT_TF_IDF
  { totalScore := finalScore
    ruleBased := ⟨ruleScore, WEIGHT_RULE_BASED, ruleScore * WEIGHT_RULE_BASED⟩
    tfidf := ⟨tfidfScore, WEIGHT_TF_IDF, tfidfScore * WEIGHT_TF_IDF⟩
    department := ⟨d.1, d.2⟩
    grade := ⟨g.1, g.2⟩
    interests := ⟨i.1, String.intercalate ("; ") i.2⟩ }

/-- Score that a result list assigns to the program with the given id, when
present. -/
noncomputable def assignedScore (results : List RecommendationResult)
    (pid : Int) : Option ℝ :=
  (results.find? (fun r => decide (r.program.id = pid))).map
    (fun r => r.score)

end Hybrid

/-! Concrete fixtures used by witnesses and counterexamples. -/

/-- A user whose query text has no token of length ≥ 2 (degenerate corpus). -/
def sampleUser : User := ⟨none, "x", 1, [], []⟩

/-- An always-open program (no application window) whose document text has no
token of length ≥ 2; its department and grade match `sampleUser`. -/
def openProgram : Program := ⟨1, "b", "", "", [], ["x"], [1], none, none, none⟩

/-- A second always-open tokenless program matching `sampleUser`. -/
def openProgram2 : Program := ⟨3, "c", "", "", [], ["x"], [1], none, none, none⟩

/-- A program whose application window closed before day 0. -/
def closedProgram : Program :=
  ⟨2, "c", "", "", [], ["x"], [1], none, some (-1), none⟩

/-- A user declaring the literal unrestricted sentinel as their department. -/
def unrestrictedUser : User := ⟨none, "제한없음", 1, [], []⟩

/-- A program open to all departments. -/
def unrestrictedProgram : Program :=
  ⟨9, "", "", "", [], ["제한없음"], [], none, none, none⟩

/-- A user whose query document is "aa bb" (tokens `aa`, `bb`, bigram
`aa bb`). -/
def textUser : User := ⟨none, "aa", 1, ["bb"], []⟩

/-- An always-open program whose document is the single token "aa"; no rule
term matches `textUser`. -/
def programAA : Program := ⟨1, "aa", "", "", [], [], [], none, none, none⟩

/-- An always-open program whose document is the single token "bb"; no rule
term matches `textUser`. -/
def programBB : Program := ⟨2, "bb", "", "", [], [], [], none, none, none⟩

/-- A user with four interests. -/
def manyInterestsUser : User := ⟨none, "x", 1, ["c1", "c2", "c3", "c4"], []⟩

/-- A program carrying the same four category tags. -/
def manyInterestsProgram : Program :=
  ⟨7, "", "", "", ["c1", "c2", "c3", "c4"], [], [], none, none, none⟩

/-! Generic facts about the shared sort/filter pipeline. -/

/-- The sort comparator is transitive. -/
theorem resultLE_trans : ∀ a b c : RecommendationResult,
    resultLE a b → resultLE b c → resultLE a c := by
  intro a b c hab hbc
  simp only [resultLE, decide_eq_true_eq] at *
  exact le_trans hbc hab

/-- The sort comparator is total. -/
theorem resultLE_total : ∀ a b : RecommendationResult,
    resultLE a b || resultLE b a := by
  intro a b
  simp only [resultLE, Bool.or_eq_true, decide_eq_true_eq]
  exact le_total b.score a.score

/-- Truncated merge-sorted lists are sorted descending by score. -/
theorem pairwise_take_mergeSort (l : List RecommendationResult) (n : Nat) :
    ((l.mergeSort resultLE).take n).Pairwise
      (fun a b => b.score ≤ a.score) := by
  have h := List.sorted_mergeSort resultLE_trans resultLE_total l
  have h2 : (l.mergeSort resultLE).Pairwise (fun a b => b.score ≤ a.score) :=
    h.imp (fun hab => by simpa [resultLE, decide_eq_true_eq] using hab)
  exact h2.sublist (List.take_sublist n _)

/-- Members of a truncated merge-sorted list are members of the original. -/
theorem mem_of_mem_take_mergeSort {r : RecommendationResult}
    {l : List RecommendationResult} {n : Nat}
    (h : r ∈ (l.mergeSort resultLE).take n) : r ∈ l :=
  List.mem_mergeSort.mp ((List.take_sublist n _).subset h)

/-- Every entry of the hybrid scoring loop's output scores at least
`minScore` and stems from the candidate list. -/
theorem hybrid_mem_scoredResults {u : User} {ps : List Program} {ms : ℝ}
    {r : RecommendationResult} (h : r ∈ Hybrid.scoredResults u ps ms) :
    ms ≤ r.score ∧ r.program ∈ ps := by
  unfold Hybrid.scoredResults at h
  obtain ⟨⟨p, t⟩, hmem, hf⟩ := List.mem_filterMap.mp h
  simp only at hf
  by_cases hlt : Hybrid.calculateHybridScore u p t < ms
  · rw [if_pos hlt] at hf
    exact absurd hf (by simp)
  · rw [if_neg hlt] at hf
    obtain rfl := Option.some_injective _ hf
    exact ⟨le_of_not_lt hlt, (List.of_mem_zip hmem).1⟩

/-- Every entry of the rule-based scoring loop's output scores at least
`minScore`, stems from the candidate list, and is open when closed programs
are excluded. -/
theorem ruleBased_mem_scoredResults {u : User} {ps : List Program}
    {ic : Bool} {ms : ℝ} {today : Date} {r : RecommendationResult}
    (h : r ∈ RuleBased.scoredResults u ps ic ms today) :
    ms ≤ r.score ∧ r.program ∈ ps ∧
      (ic = false → r.program.isApplicationOpen today = true) := by
  unfold RuleBased.scoredResults at h
  obtain ⟨p, hmem, hf⟩ := List.mem_filterMap.mp h
  simp only at hf
  by_cases hskip : ¬ic ∧ ¬p.isApplicationOpen today
  · rw [if_pos hskip] at hf
    exact absurd hf (by simp)
  · rw [if_neg hskip] at hf
    by_cases hlt : (RuleBased.calculateScore u p today).1 < ms
    · rw [if_pos hlt] at hf
      exact absurd hf (by simp)
    · rw [if_neg hlt] at hf
      obtain rfl := Option.some_injective _ hf
      refine ⟨le_of_not_lt hlt, hmem, fun hic => ?_⟩
      rcases not_and_or.mp hskip with hi | ho
      · rw [hic] at hi
        simp at hi
      · simpa using ho

/-- The batch TF-IDF score list always has one entry per program. -/
theorem tfidf_length (u : User) (ps : List Program) :
    (Hybrid.calculateTfidfScore u ps).length = ps.length := by
  unfold Hybrid.calculateTfidfScore Hybrid.vectorizeScores
  by_cases h0 : ps = []
  · simp [h0]
  · rw [if_neg h0]
    by_cases hv : Hybrid.vocabOf (Hybrid.corpusDocs u ps) = [] <;>
      simp [hv]

/-! Claim theorems. -/

/-- C2: in both variants, `recommend` returns a list sorted descending by
total score, every returned score is at least `minScore`, and the length is
at most `limit`. -/
theorem recommend_sorted_bounded (u : User) (ps : List Program) (lim : Nat)
    (ic : Bool) (ms : ℝ) (today : Date) :
    ((Hybrid.recommend u ps lim ic ms today).Pairwise
        (fun a b => b.score ≤ a.score) ∧
      (∀ r ∈ Hybrid.recommend u ps lim ic ms today, ms ≤ r.score) ∧
      (Hybrid.recommend u ps lim ic ms today).length ≤ lim) ∧
    ((RuleBased.recommend u ps lim ic ms today).Pairwise
        (fun a b => b.score ≤ a.score) ∧
      (∀ r ∈ RuleBased.recommend u ps lim ic ms today, ms ≤ r.score) ∧
      (RuleBased.recommend u ps lim ic ms today).length ≤ lim) := by
  constructor
  · unfold Hybrid.recommend
    by_cases he : Hybrid.openFiltered ps ic today = []
    · simp [he]
    · rw [if_neg he]
      refine ⟨pairwise_take_mergeSort _ _, fun r hr =>
        (hybrid_mem_scoredResults (mem_of_mem_take_mergeSort hr)).1,
        List.length_take_le _ _⟩
  · unfold RuleBased.recommend
    exact ⟨pairwise_take_mergeSort _ _, fun r hr =>
      (ruleBased_mem_scoredResults (mem_of_mem_take_mergeSort hr)).1,
      List.length_take_le _ _⟩

/-- A pair that is a sublist of a duplicate-free list stays a sublist of any
prefix that still contains its second element. -/
theorem pair_sublist_take {α : Type} {a b : α} :
    ∀ (l : List α) (n : Nat), l.Nodup → [a, b] <+ l → b ∈ l.take n →
      [a, b] <+ l.take n := by
  intro l
  induction l with
  | nil =>
    intro n _ hab _
    exact absurd (List.sublist_nil.mp hab) (by simp)
  | cons c l ih =>
    intro n hnd hab hb
    cases n with
    | zero => simp at hb
    | succ m =>
      rw [List.take_succ_cons] at hb ⊢
      cases hab with
      | cons₂ x h' =>
        rcases List.mem_cons.mp hb with rfl | hb'
        · exact absurd (List.singleton_sublist.mp h')
            (List.nodup_cons.mp hnd).1
        · exact (List.singleton_sublist.mpr hb').cons₂ _
      | cons x h' =>
        rcases List.mem_cons.mp hb with rfl | hb'
        · exact absurd (h'.subset (by simp)) (List.nodup_cons.mp hnd).1
        · exact (ih m (List.nodup_cons.mp hnd).2 h' hb').cons _

/-- Mapping a filterMap whose output determines the input's image is a
sublist of the mapped input. -/
theorem map_filterMap_sublist {α β γ : Type} (f : α → Option β) (g : β → γ)
    (e : α → γ) (hfe : ∀ x y, f x = some y → g y = e x) :
    ∀ l : List α, ((l.filterMap f).map g) <+ l.map e := by
  intro l
  induction l with
  | nil => simp
  | cons x l ih =>
    rcases hfx : f x with _ | y <;>
      simp only [List.filterMap_cons, hfx, List.map_cons]
    · exact ih.cons _
    · rw [hfe x y hfx]
      exact ih.cons₂ _

/-- The programs of the hybrid scoring loop's output form a sublist of the
candidate list. -/
theorem hybrid_scored_map_sublist (u : User) (ps : List Program) (ms : ℝ) :
    ((Hybrid.scoredResults u ps ms).map (fun r => r.program)) <+ ps := by
  unfold Hybrid.scoredResults
  have hfe : ∀ (x : Program × ℝ) (y : RecommendationResult),
      (if Hybrid.calculateHybridScore u x.1 x.2 < ms then none
        else some (⟨x.1, Hybrid.calculateHybridScore u x.1 x.2⟩ :
          RecommendationResult)) = some y →
      y.program = x.1 := by
    intro x y hxy
    by_cases hlt : Hybrid.calculateHybridScore u x.1 x.2 < ms
    · rw [if_pos hlt] at hxy
      exact absurd hxy (by simp)
    · rw [if_neg hlt] at hxy
      obtain rfl := Option.some_injective _ hxy
      rfl
  have h := map_filterMap_sublist _ (fun r : RecommendationResult => r.program) Prod.fst hfe
    (ps.zip (Hybrid.calculateTfidfScore u ps))
  have h2 : (ps.zip (Hybrid.calculateTfidfScore u ps)).map Prod.fst = ps :=
    List.map_fst_zip _ _ (le_of_eq (tfidf_length u ps).symm)
  rw [h2] at h
  exact h

/-- The programs of the rule-based scoring loop's output form a sublist of
the candidate list. -/
theorem rule_scored_map_sublist (u : User) (ps : List Program) (ic : Bool)
    (ms : ℝ) (today : Date) :
    ((RuleBased.scoredResults u ps ic ms today).map (fun r => r.program)) <+
      ps := by
  unfold RuleBased.scoredResults
  have hfe : ∀ (x : Program) (y : RecommendationResult),
      (if ¬ic ∧ ¬x.isApplicationOpen today then none
        else if (RuleBased.calculateScore u x today).1 < ms then none
        else some (⟨x, (RuleBased.calculateScore u x today).1⟩ :
          RecommendationResult)) = some y →
      y.program = x := by
    intro x y hxy
    by_cases hskip : ¬ic ∧ ¬x.isApplicationOpen today
    · rw [if_pos hskip] at hxy
      exact absurd hxy (by simp)
    · rw [if_neg hskip] at hxy
      by_cases hlt : (RuleBased.calculateScore u x today).1 < ms
      · rw [if_pos hlt] at hxy
        exact absurd hxy (by simp)
      · rw [if_neg hlt] at hxy
        obtain rfl := Option.some_injective _ hxy
        rfl
  have h := map_filterMap_sublist _ (fun r : RecommendationResult => r.program) id hfe ps
  simpa using h

/-- C9: the sort is stable in both variants — two surviving results with
equal total scores keep, in the returned list, the relative order their
programs had in the (duplicate-free) input list; moreover the scoring loops
preserve the input order, so that order is the pre-filter candidate order. -/
theorem recommend_stable (u : User) (ps : List Program) (lim : Nat)
    (ic : Bool) (ms : ℝ) (today : Date) (a b : RecommendationResult)
    (hnd : ps.Nodup) (hs : a.score = b.score) :
    ([a, b] <+ Hybrid.scoredResults u (Hybrid.openFiltered ps ic today) ms →
      [a.program, b.program] <+ ps ∧
      (b ∈ Hybrid.recommend u ps lim ic ms today →
        [a, b] <+ Hybrid.recommend u ps lim ic ms today)) ∧
    ([a, b] <+ RuleBased.scoredResults u ps ic ms today →
      [a.program, b.program] <+ ps ∧
      (b ∈ RuleBased.recommend u ps lim ic ms today →
        [a, b] <+ RuleBased.recommend u ps lim ic ms today)) := by
  have hle : resultLE a b := decide_eq_true (le_of_eq hs.symm)
  have hof : Hybrid.openFiltered ps ic today <+ ps := by
    unfold Hybrid.openFiltered
    split_ifs
    · exact List.Sublist.refl _
    · exact List.filter_sublist _
  constructor
  · intro hsub
    have hmap : [a.program, b.program] <+ ps :=
      ((hsub.map (fun r : RecommendationResult => r.program)).trans
        (hybrid_scored_map_sublist u _ ms)).trans hof
    refine ⟨hmap, fun hbmem => ?_⟩
    have hne : ¬Hybrid.openFiltered ps ic today = [] := by
      intro h0
      rw [h0] at hsub
      have h1 : Hybrid.scoredResults u [] ms = [] := rfl
      rw [h1] at hsub
      simp at hsub
    have hrec : Hybrid.recommend u ps lim ic ms today =
        ((Hybrid.scoredResults u (Hybrid.openFiltered ps ic today)
          ms).mergeSort resultLE).take lim := by
      unfold Hybrid.recommend
      rw [if_neg hne]
    rw [hrec] at hbmem ⊢
    have hnds : (Hybrid.scoredResults u (Hybrid.openFiltered ps ic today)
        ms).Nodup :=
      List.Nodup.of_map _ (((hybrid_scored_map_sublist u _ ms).nodup
        (hof.nodup hnd)))
    have hndm : ((Hybrid.scoredResults u (Hybrid.openFiltered ps ic today)
        ms).mergeSort resultLE).Nodup :=
      (List.mergeSort_perm _ _).nodup_iff.mpr hnds
    have hpair : [a, b] <+ (Hybrid.scoredResults u
        (Hybrid.openFiltered ps ic today) ms).mergeSort resultLE :=
      List.sublist_mergeSort resultLE_trans resultLE_total
        (List.pairwise_pair.mpr hle) hsub
    exact pair_sublist_take _ lim hndm hpair hbmem
  · intro hsub
    have hmap : [a.program, b.program] <+ ps :=
      (hsub.map (fun r : RecommendationResult => r.program)).trans
        (rule_scored_map_sublist u ps ic ms today)
    refine ⟨hmap, fun hbmem => ?_⟩
    have hrec : RuleBased.recommend u ps lim ic ms today =
        ((RuleBased.scoredResults u ps ic ms today).mergeSort
          resultLE).take lim := rfl
    rw [hrec] at hbmem ⊢
    have hnds : (RuleBased.scoredResults u ps ic ms today).Nodup :=
      List.Nodup.of_map _
        ((rule_scored_map_sublist u ps ic ms today).nodup hnd)
    have hndm : ((RuleBased.scoredResults u ps ic ms today).mergeSort
        resultLE).Nodup :=
      (List.mergeSort_perm _ _).nodup_iff.mpr hnds
    have hpair : [a, b] <+ (RuleBased.scoredResults u ps ic ms
        today).mergeSort resultLE :=
      List.sublist_mergeSort resultLE_trans resultLE_total
        (List.pairwise_pair.mpr hle) hsub
    exact pair_sublist_take _ lim hndm hpair hbmem

/-- C3: with `includeClosed = false`, neither variant ever returns a program
whose derived open-state is false, even when closed programs appear in the
input list. -/
theorem recommend_excludes_closed (u : User) (ps : List Program) (lim : Nat)
    (ms : ℝ) (today : Date) (r : RecommendationResult) :
    (r ∈ Hybrid.recommend u ps lim false ms today →
      r.program.isApplicationOpen today = true) ∧
    (r ∈ RuleBased.recommend u ps lim false ms today →
      r.program.isApplicationOpen today = true) := by
  constructor
  · intro hr
    unfold Hybrid.recommend at hr
    by_cases he : Hybrid.openFiltered ps false today = []
    · rw [he] at hr
      simp at hr
    · rw [if_neg he] at hr
      have hmem := (hybrid_mem_scoredResults
        (mem_of_mem_take_mergeSort hr)).2
      unfold Hybrid.openFiltered at hmem
      simp only [Bool.false_eq_true, if_false] at hmem
      simpa using (List.mem_filter.mp hmem).2
  · intro hr
    unfold RuleBased.recommend at hr
    exact (ruleBased_mem_scoredResults
      (mem_of_mem_take_mergeSort hr)).2.2 rfl

/-- C5: in both variants the department term is `DEPT_EXACT` (40.0) whenever
the user's department appears in `program.departments` (regardless of how
many departments overlap — the user has a single department, so no
additivity is possible); otherwise it is `DEPT_OPEN` (20.0) exactly when the
sentinel "제한없음" is present; otherwise 0.0.  The first applicable branch
fires, so an exact match takes precedence over the sentinel. -/
theorem department_term_spec (u : User) (p : Program) :
    (Hybrid.calculateDepartmentScore u p).1 =
      (if u.department ∈ p.departments then Hybrid.WEIGHT_DEPARTMENT_EXACT
        else if "제한없음" ∈ p.departments then
          Hybrid.WEIGHT_DEPARTMENT_UNRESTRICTED
        else 0.0) ∧
    (RuleBased.calculateDepartmentScore u p).1 =
      (if u.department ∈ p.departments then RuleBased.WEIGHT_DEPARTMENT_EXACT
        else if "제한없음" ∈ p.departments then
          RuleBased.WEIGHT_DEPARTMENT_UNRESTRICTED
        else 0.0) := by
  constructor <;>
  · simp only [Hybrid.calculateDepartmentScore,
      RuleBased.calculateDepartmentScore]
    split_ifs with h1 h2 h3 <;> simp_all

/-- C10: when the user's own department string is the unrestricted sentinel
"제한없음" and that sentinel occurs in `program.departments`, the exact-match
branch fires in both variants: the term is `DEPT_EXACT` (40.0) with an
exact-match reason, not `DEPT_OPEN` (20.0). -/
theorem department_term_sentinel_user (u : User) (p : Program)
    (hu : u.department = "제한없음") (hp : "제한없음" ∈ p.departments) :
    Hybrid.calculateDepartmentScore u p =
      (Hybrid.WEIGHT_DEPARTMENT_EXACT, "학과 일치: 제한없음") ∧
    RuleBased.calculateDepartmentScore u p =
      (RuleBased.WEIGHT_DEPARTMENT_EXACT, "학과 일치: 제한없음") := by
  have hne : ¬p.departments = [] := by
    intro h
    rw [h] at hp
    exact List.not_mem_nil _ hp
  have hmem : u.department ∈ p.departments := by rw [hu]; exact hp
  constructor <;>
  · simp [Hybrid.calculateDepartmentScore, RuleBased.calculateDepartmentScore,
      hne, hmem, hu, hp]

/-- Witness for C10 at a concrete user and program. -/
theorem department_term_sentinel_user_witness :
    Hybrid.calculateDepartmentScore unrestrictedUser unrestrictedProgram =
      (Hybrid.WEIGHT_DEPARTMENT_EXACT, "학과 일치: 제한없음") ∧
    RuleBased.calculateDepartmentScore unrestrictedUser unrestrictedProgram =
      (RuleBased.WEIGHT_DEPARTMENT_EXACT, "학과 일치: 제한없음") :=
  department_term_sentinel_user unrestrictedUser unrestrictedProgram rfl
    (by decide)

/-- C7 counterexample: the pydantic boundary declares `grade` with
`ge=1, le=7`, so constructing a user profile with grade 0 (the documented
"unrestricted/no-preference" code) is rejected, contrary to the claim. -/
theorem mkUser_grade_zero_rejected :
    (mkUser none ("컴퓨터과학부") 0 [] []).isOk = false := by decide

/-- C7 amended: user-profile construction succeeds exactly for grades in
{1..7}; every value outside that domain — including 0 — is rejected at the
boundary. -/
theorem mkUser_ok_iff (uid : Option Int) (d : String) (g : Int)
    (i f : List String) :
    (mkUser uid d g i f).isOk = true ↔ (1 ≤ g ∧ g ≤ 7) := by
  unfold mkUser
  split_ifs with h <;> simp [Except.isOk, Except.toBool, h]

/-- Witness for the amended C7: grade 3 is accepted. -/
theorem mkUser_ok_iff_witness :
    (mkUser none ("컴퓨터과학부") 3 [] []).isOk = true :=
  (mkUser_ok_iff none ("컴퓨터과학부") 3 [] []).mpr (by decide)

/-- C4 counterexample: with four matched interest categories the simple
rule-based variant scores 4 × 10.0 = 40.0, exceeding the documented cap of
30.0 — the simple variant applies no cap at all. -/
theorem interest_term_exceeds_cap :
    (RuleBased.calculateInterestScore manyInterestsUser
      manyInterestsProgram).1 = 40.0 ∧
    ¬(RuleBased.calculateInterestScore manyInterestsUser
      manyInterestsProgram).1 ≤ 30.0 := by
  have hm : matchingCategories manyInterestsUser manyInterestsProgram =
      ["c1", "c2", "c3", "c4"] := by decide
  have h1 : ¬(manyInterestsUser.interests = [] ∨
      manyInterestsProgram.categories = []) := by decide
  have hcl : ¬(["c1", "c2", "c3", "c4"] : List String) = [] := by decide
  have hval : (RuleBased.calculateInterestScore manyInterestsUser
      manyInterestsProgram).1 = 40.0 := by
    simp only [RuleBased.calculateInterestScore, if_neg h1, hm,
      RuleBased.WEIGHT_INTEREST_PER_MATCH]
    rw [if_neg hcl]
    norm_num
  exact ⟨hval, by rw [hval]; norm_num⟩

/-- C4 amended: the interest term equals `min(5.0 × |M|, 30.0)` in the hybrid
variant (so it stops growing at 6 matches) and `10.0 × |M|` with no cap in the
simple variant (so it exceeds 30.0 as soon as |M| ≥ 4); both are monotonically
non-decreasing in `|M| = |user.interests ∩ program.categories|`, and only the
hybrid variant never exceeds 30.0. -/
theorem interest_term_spec (u u' : User) (p : Program) :
    (Hybrid.calculateInterestScore u p).1 =
      min ((matchCount u p : ℝ) * 5.0) 30.0 ∧
    (RuleBased.calculateInterestScore u p).1 = (matchCount u p : ℝ) * 10.0 ∧
    (Hybrid.calculateInterestScore u p).1 ≤ 30.0 ∧
    (matchCount u p ≤ matchCount u' p →
      (Hybrid.calculateInterestScore u p).1 ≤
        (Hybrid.calculateInterestScore u' p).1 ∧
      (RuleBased.calculateInterestScore u p).1 ≤
        (RuleBased.calculateInterestScore u' p).1) := by
  have hH : ∀ v : User, (Hybrid.calculateInterestScore v p).1 =
      min ((matchCount v p : ℝ) * 5.0) 30.0 := by
    intro v
    unfold Hybrid.calculateInterestScore
    split_ifs with h1 h2
    · have hz : matchCount v p = 0 := by
        rcases h1 with h | h <;>
          simp [matchCount, matchingCategories, h, List.filter_eq_nil]
      rw [hz]
      norm_num [Hybrid.MAX_INTEREST_SCORE]
    · have hz : matchCount v p = 0 := by simp [matchCount, h2]
      rw [hz]
      norm_num [Hybrid.MAX_INTEREST_SCORE]
    · simp [matchCount, Hybrid.WEIGHT_INTEREST_PER_MATCH,
        Hybrid.MAX_INTEREST_SCORE]
  have hR : ∀ v : User, (RuleBased.calculateInterestScore v p).1 =
      (matchCount v p : ℝ) * 10.0 := by
    intro v
    unfold RuleBased.calculateInterestScore
    split_ifs with h1 h2
    · have hz : matchCount v p = 0 := by
        rcases h1 with h | h <;>
          simp [matchCount, matchingCategories, h, List.filter_eq_nil]
      rw [hz]
      norm_num
    · have hz : matchCount v p = 0 := by simp [matchCount, h2]
      rw [hz]
      norm_num
    · simp [matchCount, RuleBased.WEIGHT_INTEREST_PER_MATCH]
  refine ⟨hH u, hR u, ?_, fun hle => ⟨?_, ?_⟩⟩
  · rw [hH u]; exact min_le_right _ _
  · rw [hH u, hH u']
    have : (matchCount u p : ℝ) ≤ (matchCount u' p : ℝ) := by
      exact_mod_cast hle
    apply min_le_min _ le_rfl
    nlinarith
  · rw [hR u, hR u']
    have : (matchCount u p : ℝ) ≤ (matchCount u' p : ℝ) := by
      exact_mod_cast hle
    nlinarith

/-- Witness for the amended C4: monotonicity applied to a concrete pair of
users (zero matches versus four matches on the same program). -/
theorem interest_term_spec_witness :
    (Hybrid.calculateInterestScore sampleUser manyInterestsProgram).1 ≤
      (Hybrid.calculateInterestScore manyInterestsUser
        manyInterestsProgram).1 ∧
    (RuleBased.calculateInterestScore sampleUser manyInterestsProgram).1 ≤
      (RuleBased.calculateInterestScore manyInterestsUser
        manyInterestsProgram).1 :=
  (interest_term_spec sampleUser manyInterestsUser manyInterestsProgram).2.2.2
    (by decide)

/-- The simple variant's total decomposes into the three matching terms plus
the conditional deadline bonus. -/
theorem ruleBased_score_decomposition (u : User) (p : Program)
    (today : Date) :
    (RuleBased.calculateScore u p today).1 =
      (RuleBased.calculateDepartmentScore u p).1 +
        (RuleBased.calculateGradeScore u p).1 +
        (RuleBased.calculateInterestScore u p).1 +
        (match p.appEndDate with
          | some e =>
            if 0 ≤ e - today ∧ e - today ≤ 7 then RuleBased.BONUS_DEADLINE_NEAR
            else 0.0
          | none => 0.0) := by
  have hopt : p.appEndDate = none ∨ ∃ e, p.appEndDate = some e := by
    cases p.appEndDate
    · exact Or.inl rfl
    · exact Or.inr ⟨_, rfl⟩
  simp only [RuleBased.calculateScore, Program.isDeadlineNear]
  rcases hopt with he | ⟨e, he⟩
  · simp only [he]
    norm_num
  · simp only [he, decide_eq_true_eq]
    by_cases hc : 0 ≤ e - today ∧ e - today ≤ 7
    · rw [if_pos hc, if_pos hc]
    · rw [if_neg hc, if_neg hc]
      norm_num

/-- C8: the simple rule-based variant's total adds the fixed 10.0 deadline
bonus exactly when the application end date exists and lies between 0 and 7
days (inclusive) from today; the hybrid variant's rule component is the bare
sum of the three matching terms, with no deadline bonus for any input (it
does not even depend on today's date). -/
theorem deadline_bonus_spec (u : User) (p : Program) (today : Date) :
    (RuleBased.calculateScore u p today).1 =
      (RuleBased.calculateDepartmentScore u p).1 +
        (RuleBased.calculateGradeScore u p).1 +
        (RuleBased.calculateInterestScore u p).1 +
        (match p.appEndDate with
          | some e =>
            if 0 ≤ e - today ∧ e - today ≤ 7 then RuleBased.BONUS_DEADLINE_NEAR
            else 0.0
          | none => 0.0) ∧
    (Hybrid.calculateScore u p).1 =
      (Hybrid.calculateDepartmentScore u p).1 +
        (Hybrid.calculateGradeScore u p).1 +
        (Hybrid.calculateInterestScore u p).1 := by
  exact ⟨ruleBased_score_decomposition u p today, rfl⟩

/-! Concrete evaluations of the recommenders on the fixtures, used by the
witnesses below. -/

/-- On the degenerate two-program corpus every document is tokenless, so the
vectorization fails and both TF-IDF scores are zero. -/
theorem tfidf_degenerate_pair :
    Hybrid.calculateTfidfScore sampleUser [openProgram, openProgram2] =
      [0, 0] := by
  have hv : Hybrid.vocabOf (Hybrid.corpusDocs sampleUser
      [openProgram, openProgram2]) = [] := by decide
  unfold Hybrid.calculateTfidfScore Hybrid.vectorizeScores
  rw [if_neg (by simp : ¬([openProgram, openProgram2] : List Program) = [])]
  rw [if_pos hv]
  show List.replicate 2 0.0 = _
  norm_num [List.replicate]

/-- Same degeneracy for the singleton corpus. -/
theorem tfidf_degenerate_single :
    Hybrid.calculateTfidfScore sampleUser [openProgram] = [0] := by
  have hv : Hybrid.vocabOf (Hybrid.corpusDocs sampleUser [openProgram]) =
      [] := by decide
  unfold Hybrid.calculateTfidfScore Hybrid.vectorizeScores
  rw [if_neg (by simp : ¬([openProgram] : List Program) = [])]
  rw [if_pos hv]
  show List.replicate 1 0.0 = _
  norm_num [List.replicate]

/-- Hybrid total of `sampleUser` and `openProgram` with TF-IDF score 0:
(40 + 30 + 0) × 0.6 + 0 × 0.4 = 42. -/
theorem hybrid_score_open1 :
    Hybrid.calculateHybridScore sampleUser openProgram 0 = 42 := by
  have hd : Hybrid.calculateDepartmentScore sampleUser openProgram =
      (Hybrid.WEIGHT_DEPARTMENT_EXACT, "학과 일치: x") := by
    simp [Hybrid.calculateDepartmentScore, sampleUser, openProgram]
  have hg : Hybrid.calculateGradeScore sampleUser openProgram =
      (Hybrid.WEIGHT_GRADE_EXACT, "학년 일치: 1학년") := by
    simp [Hybrid.calculateGradeScore, sampleUser, openProgram,
      RuleBased.getGradeName]
  have hi : Hybrid.calculateInterestScore sampleUser openProgram =
      (0.0, []) := by
    simp [Hybrid.calculateInterestScore, sampleUser, openProgram]
  unfold Hybrid.calculateHybridScore Hybrid.calculateScore
  rw [hd, hg, hi]
  norm_num [Hybrid.WEIGHT_DEPARTMENT_EXACT, Hybrid.WEIGHT_GRADE_EXACT,
    Hybrid.WEIGHT_RULE_BASED, Hybrid.WEIGHT_TF_IDF]

/-- Same total for `openProgram2`. -/
theorem hybrid_score_open2 :
    Hybrid.calculateHybridScore sampleUser openProgram2 0 = 42 := by
  have hd : Hybrid.calculateDepartmentScore sampleUser openProgram2 =
      (Hybrid.WEIGHT_DEPARTMENT_EXACT, "학과 일치: x") := by
    simp [Hybrid.calculateDepartmentScore, sampleUser, openProgram2]
  have hg : Hybrid.calculateGradeScore sampleUser openProgram2 =
      (Hybrid.WEIGHT_GRADE_EXACT, "학년 일치: 1학년") := by
    simp [Hybrid.calculateGradeScore, sampleUser, openProgram2,
      RuleBased.getGradeName]
  have hi : Hybrid.calculateInterestScore sampleUser openProgram2 =
      (0.0, []) := by
    simp [Hybrid.calculateInterestScore, sampleUser, openProgram2]
  unfold Hybrid.calculateHybridScore Hybrid.calculateScore
  rw [hd, hg, hi]
  norm_num [Hybrid.WEIGHT_DEPARTMENT_EXACT, Hybrid.WEIGHT_GRADE_EXACT,
    Hybrid.WEIGHT_RULE_BASED, Hybrid.WEIGHT_TF_IDF]

/-- The hybrid scoring loop on the two open fixtures. -/
theorem hybrid_sample_scored :
    Hybrid.scoredResults sampleUser [openProgram, openProgram2] 20 =
      [⟨openProgram, 42⟩, ⟨openProgram2, 42⟩] := by
  unfold Hybrid.scoredResults
  rw [tfidf_degenerate_pair]
  show List.filterMap _ [(openProgram, (0 : ℝ)), (openProgram2, 0)] = _
  rw [List.filterMap_cons, List.filterMap_cons, List.filterMap_nil]
  simp only [hybrid_score_open1, hybrid_score_open2]
  simp only [if_neg (by norm_num : ¬(42 : ℝ) < 20)]

/-- The full hybrid recommendation on the two open fixtures. -/
theorem hybrid_sample_recommend :
    Hybrid.recommend sampleUser [openProgram, openProgram2] 5 false 20 0 =
      [⟨openProgram, 42⟩, ⟨openProgram2, 42⟩] := by
  unfold Hybrid.recommend
  have hof : Hybrid.openFiltered [openProgram, openProgram2] false 0 =
      [openProgram, openProgram2] := by decide
  rw [hof]
  rw [if_neg (by simp : ¬([openProgram, openProgram2] : List Program) = [])]
  rw [hybrid_sample_scored]
  have hsorted : List.Pairwise (fun a b => resultLE a b = true)
      [(⟨openProgram, 42⟩ : RecommendationResult), ⟨openProgram2, 42⟩] := by
    refine List.pairwise_cons.mpr ⟨?_, List.pairwise_singleton _ _⟩
    intro b hb
    rw [List.mem_singleton] at hb
    subst hb
    exact decide_eq_true (le_refl _)
  rw [List.mergeSort_of_sorted hsorted]
  exact List.take_of_length_le (by simp)

/-- The hybrid recommendation drops the closed fixture. -/
theorem hybrid_closed_recommend :
    Hybrid.recommend sampleUser [openProgram, closedProgram] 5 false 20 0 =
      [⟨openProgram, 42⟩] := by
  unfold Hybrid.recommend
  have hof : Hybrid.openFiltered [openProgram, closedProgram] false 0 =
      [openProgram] := by decide
  rw [hof]
  rw [if_neg (by simp : ¬([openProgram] : List Program) = [])]
  have hscored : Hybrid.scoredResults sampleUser [openProgram] 20 =
      [⟨openProgram, 42⟩] := by
    unfold Hybrid.scoredResults
    rw [tfidf_degenerate_single]
    show List.filterMap _ [(openProgram, (0 : ℝ))] = _
    rw [List.filterMap_cons, List.filterMap_nil]
    simp only [hybrid_score_open1]
    simp only [if_neg (by norm_num : ¬(42 : ℝ) < 20)]
  rw [hscored]
  rw [List.mergeSort_singleton]
  rfl

/-- Rule-based total of `sampleUser` and `openProgram`: 40 + 30 + 0 and no
deadline bonus. -/
theorem rule_score_open1 :
    (RuleBased.calculateScore sampleUser openProgram 0).1 = 70 := by
  have hd : RuleBased.calculateDepartmentScore sampleUser openProgram =
      (RuleBased.WEIGHT_DEPARTMENT_EXACT, "학과 일치: x") := by
    simp [RuleBased.calculateDepartmentScore, sampleUser, openProgram]
  have hg : RuleBased.calculateGradeScore sampleUser openProgram =
      (RuleBased.WEIGHT_GRADE_EXACT, "학년 일치: 1학년") := by
    simp [RuleBased.calculateGradeScore, sampleUser, openProgram,
      RuleBased.getGradeName]
  have hi : RuleBased.calculateInterestScore sampleUser openProgram =
      (0.0, []) := by
    simp [RuleBased.calculateInterestScore, sampleUser, openProgram]
  have hnear : openProgram.isDeadlineNear 0 = false := by decide
  unfold RuleBased.calculateScore
  rw [hd, hg, hi, hnear]
  norm_num [RuleBased.WEIGHT_DEPARTMENT_EXACT, RuleBased.WEIGHT_GRADE_EXACT]

/-- Same rule-based total for `openProgram2`. -/
theorem rule_score_open2 :
    (RuleBased.calculateScore sampleUser openProgram2 0).1 = 70 := by
  have hd : RuleBased.calculateDepartmentScore sampleUser openProgram2 =
      (RuleBased.WEIGHT_DEPARTMENT_EXACT, "학과 일치: x") := by
    simp [RuleBased.calculateDepartmentScore, sampleUser, openProgram2]
  have hg : RuleBased.calculateGradeScore sampleUser openProgram2 =
      (RuleBased.WEIGHT_GRADE_EXACT, "학년 일치: 1학년") := by
    simp [RuleBased.calculateGradeScore, sampleUser, openProgram2,
      RuleBased.getGradeName]
  have hi : RuleBased.calculateInterestScore sampleUser openProgram2 =
      (0.0, []) := by
    simp [RuleBased.calculateInterestScore, sampleUser, openProgram2]
  have hnear : openProgram2.isDeadlineNear 0 = false := by decide
  unfold RuleBased.calculateScore
  rw [hd, hg, hi, hnear]
  norm_num [RuleBased.WEIGHT_DEPARTMENT_EXACT, RuleBased.WEIGHT_GRADE_EXACT]

/-- The rule-based scoring loop on the two open fixtures. -/
theorem rule_sample_scored :
    RuleBased.scoredResults sampleUser [openProgram, openProgram2] false 20
      0 = [⟨openProgram, 70⟩, ⟨openProgram2, 70⟩] := by
  unfold RuleBased.scoredResults
  rw [List.filterMap_cons, List.filterMap_cons, List.filterMap_nil]
  simp only
  rw [if_neg (by decide : ¬(¬false = true ∧
    ¬openProgram.isApplicationOpen 0 = true))]
  rw [if_neg (by decide : ¬(¬false = true ∧
    ¬openProgram2.isApplicationOpen 0 = true))]
  simp only [rule_score_open1, rule_score_open2]
  simp only [if_neg (by norm_num : ¬(70 : ℝ) < 20)]

/-- The full rule-based recommendation on the two open fixtures. -/
theorem rule_sample_recommend :
    RuleBased.recommend sampleUser [openProgram, openProgram2] 5 false 20
      0 = [⟨openProgram, 70⟩, ⟨openProgram2, 70⟩] := by
  unfold RuleBased.recommend
  rw [rule_sample_scored]
  have hsorted : List.Pairwise (fun a b => resultLE a b = true)
      [(⟨openProgram, 70⟩ : RecommendationResult), ⟨openProgram2, 70⟩] := by
    refine List.pairwise_cons.mpr ⟨?_, List.pairwise_singleton _ _⟩
    intro b hb
    rw [List.mem_singleton] at hb
    subst hb
    exact decide_eq_true (le_refl _)
  rw [List.mergeSort_of_sorted hsorted]
  exact List.take_of_length_le (by simp)

/-- The rule-based recommendation drops the closed fixture. -/
theorem rule_closed_recommend :
    RuleBased.recommend sampleUser [openProgram, closedProgram] 5 false 20
      0 = [⟨openProgram, 70⟩] := by
  unfold RuleBased.recommend
  have hscored : RuleBased.scoredResults sampleUser
      [openProgram, closedProgram] false 20 0 = [⟨openProgram, 70⟩] := by
    unfold RuleBased.scoredResults
    rw [List.filterMap_cons, List.filterMap_cons, List.filterMap_nil]
    simp only
    rw [if_neg (by decide : ¬(¬false = true ∧
      ¬openProgram.isApplicationOpen 0 = true))]
    rw [if_pos (by decide : (¬false = true ∧
      ¬closedProgram.isApplicationOpen 0 = true))]
    simp only [rule_score_open1]
    simp only [if_neg (by norm_num : ¬(70 : ℝ) < 20)]
  rw [hscored]
  rw [List.mergeSort_singleton]
  rfl

/-- Witness for C2 on concrete inputs: length bounds and the minimum-score
bound for a concrete returned result. -/
theorem recommend_sorted_bounded_witness :
    (Hybrid.recommend sampleUser [openProgram, openProgram2] 5 false 20
      0).length ≤ 5 ∧
    (RuleBased.recommend sampleUser [openProgram, openProgram2] 5 false 20
      0).length ≤ 5 ∧
    (20 : ℝ) ≤ (⟨openProgram, 42⟩ : RecommendationResult).score :=
  ⟨(recommend_sorted_bounded sampleUser [openProgram, openProgram2] 5 false
      20 0).1.2.2,
    (recommend_sorted_bounded sampleUser [openProgram, openProgram2] 5 false
      20 0).2.2.2,
    (recommend_sorted_bounded sampleUser [openProgram, openProgram2] 5 false
      20 0).1.2.1 ⟨openProgram, 42⟩
      (by rw [hybrid_sample_recommend]; simp)⟩

/-- Witness for C3 on concrete inputs containing a closed program. -/
theorem recommend_excludes_closed_witness :
    (⟨openProgram, (42 : ℝ)⟩ :
      RecommendationResult).program.isApplicationOpen 0 = true ∧
    (⟨openProgram, (70 : ℝ)⟩ :
      RecommendationResult).program.isApplicationOpen 0 = true :=
  ⟨(recommend_excludes_closed sampleUser [openProgram, closedProgram] 5 20 0
      ⟨openProgram, 42⟩).1 (by rw [hybrid_closed_recommend]; simp),
    (recommend_excludes_closed sampleUser [openProgram, closedProgram] 5 20 0
      ⟨openProgram, 70⟩).2 (by rw [rule_closed_recommend]; simp)⟩

/-- Witness for C9 on concrete inputs with two equal-scored programs. -/
theorem recommend_stable_witness :
    List.Sublist
      [(⟨openProgram, (42 : ℝ)⟩ : RecommendationResult), ⟨openProgram2, 42⟩]
      (Hybrid.recommend sampleUser [openProgram, openProgram2] 5 false 20
        0) ∧
    List.Sublist
      [(⟨openProgram, (70 : ℝ)⟩ : RecommendationResult), ⟨openProgram2, 70⟩]
      (RuleBased.recommend sampleUser [openProgram, openProgram2] 5 false 20
        0) := by
  constructor
  · refine ((recommend_stable sampleUser [openProgram, openProgram2] 5 false
      20 0 ⟨openProgram, 42⟩ ⟨openProgram2, 42⟩ (by decide) rfl).1 ?_).2 ?_
    · have hof : Hybrid.openFiltered [openProgram, openProgram2] false 0 =
          [openProgram, openProgram2] := by decide
      rw [hof, hybrid_sample_scored]
    · rw [hybrid_sample_recommend]
      simp
  · refine ((recommend_stable sampleUser [openProgram, openProgram2] 5 false
      20 0 ⟨openProgram, 70⟩ ⟨openProgram2, 70⟩ (by decide) rfl).2 ?_).2 ?_
    · rw [rule_sample_scored]
    · rw [rule_sample_recommend]
      simp

/-- C6: the TF-IDF scorer returns the empty list on an empty program list
(the guard precedes any vectorization in the source), and a vectorization
failure — an empty fitted vocabulary, i.e. a degenerate corpus after
normalization — is caught locally and converted into one zero score per
program instead of being raised to the caller. -/
theorem tfidf_error_handling (u : User) (ps : List Program) :
    Hybrid.calculateTfidfScore u [] = [] ∧
    (¬ps = [] → Hybrid.vocabOf (Hybrid.corpusDocs u ps) = [] →
      Hybrid.calculateTfidfScore u ps = List.replicate ps.length 0.0) := by
  constructor
  · rfl
  · intro hne hv
    unfold Hybrid.calculateTfidfScore Hybrid.vectorizeScores
    rw [if_neg hne, if_pos hv]

/-- Witness for C6: a one-program corpus whose documents all normalize to
token-free text yields the single zero score. -/
theorem tfidf_error_handling_witness :
    Hybrid.calculateTfidfScore sampleUser [openProgram] =
      List.replicate 1 0.0 :=
  (tfidf_error_handling sampleUser [openProgram]).2 (by simp) (by decide)

/-! Symbolic TF-IDF evaluation on the text fixtures, for C1.  The query
document is `["aa", "bb", "aa bb"]`; the two program documents are `["aa"]`
and `["bb"]`.  `recommend` fits the three-document corpus while
`explain_score` fits the two-document corpus `{query, program}`, so the two
paths produce different idf values and hence different totals. -/

/-- Query self-product in the three-document corpus. -/
theorem dot2_qq :
    Hybrid.dotProduct [["aa", "bb", "aa bb"], ["aa"], ["bb"]]
      ["aa", "bb", "aa bb"] ["aa", "bb", "aa bb"] =
      (1 + Real.log 2) ^ 2 + 2 * (1 + Real.log (4 / 3)) ^ 2 := by
  simp [Hybrid.dotProduct, Hybrid.vocabOf, Hybrid.weight, Hybrid.idf]
  norm_num [List.count, List.countP]
  ring

/-- Query–program product for `["aa"]` in the three-document corpus. -/
theorem dot2_qa :
    Hybrid.dotProduct [["aa", "bb", "aa bb"], ["aa"], ["bb"]]
      ["aa", "bb", "aa bb"] ["aa"] = (1 + Real.log (4 / 3)) ^ 2 := by
  simp [Hybrid.dotProduct, Hybrid.vocabOf, Hybrid.weight, Hybrid.idf]
  norm_num [List.count, List.countP]
  ring

/-- Self-product of `["aa"]` in the three-document corpus. -/
theorem dot2_aa :
    Hybrid.dotProduct [["aa", "bb", "aa bb"], ["aa"], ["bb"]]
      ["aa"] ["aa"] = (1 + Real.log (4 / 3)) ^ 2 := by
  simp [Hybrid.dotProduct, Hybrid.vocabOf, Hybrid.weight, Hybrid.idf]
  norm_num [List.count, List.countP]
  ring

/-- Query–program product for `["bb"]` in the three-document corpus. -/
theorem dot2_qb :
    Hybrid.dotProduct [["aa", "bb", "aa bb"], ["aa"], ["bb"]]
      ["aa", "bb", "aa bb"] ["bb"] = (1 + Real.log (4 / 3)) ^ 2 := by
  simp [Hybrid.dotProduct, Hybrid.vocabOf, Hybrid.weight, Hybrid.idf]
  norm_num [List.count, List.countP]
  ring

/-- Self-product of `["bb"]` in the three-document corpus. -/
theorem dot2_bb :
    Hybrid.dotProduct [["aa", "bb", "aa bb"], ["aa"], ["bb"]]
      ["bb"] ["bb"] = (1 + Real.log (4 / 3)) ^ 2 := by
  simp [Hybrid.dotProduct, Hybrid.vocabOf, Hybrid.weight, Hybrid.idf]
  norm_num [List.count, List.countP]
  ring

/-- Query self-product in the two-document corpus used by `explain_score`. -/
theorem dot1_qq :
    Hybrid.dotProduct [["aa", "bb", "aa bb"], ["aa"]]
      ["aa", "bb", "aa bb"] ["aa", "bb", "aa bb"] =
      1 + 2 * (1 + Real.log (3 / 2)) ^ 2 := by
  simp [Hybrid.dotProduct, Hybrid.vocabOf, Hybrid.weight, Hybrid.idf]
  norm_num [List.count, List.countP]
  ring

/-- Query–program product in the two-document corpus. -/
theorem dot1_qa :
    Hybrid.dotProduct [["aa", "bb", "aa bb"], ["aa"]]
      ["aa", "bb", "aa bb"] ["aa"] = 1 := by
  simp [Hybrid.dotProduct, Hybrid.vocabOf, Hybrid.weight, Hybrid.idf]
  norm_num [List.count, List.countP]

/-- Program self-product in the two-document corpus. -/
theorem dot1_aa :
    Hybrid.dotProduct [["aa", "bb", "aa bb"], ["aa"]]
      ["aa"] ["aa"] = 1 := by
  simp [Hybrid.dotProduct, Hybrid.vocabOf, Hybrid.weight, Hybrid.idf]
  norm_num [List.count, List.countP]

/-- Lower log bound: `log(4/3) ≥ 1/4`, from `log x ≤ x - 1` at `3/4`. -/
theorem log_43_ge : (1 : ℝ) / 4 ≤ Real.log (4 / 3) := by
  have h := Real.log_le_sub_one_of_pos (show (0 : ℝ) < 3 / 4 by norm_num)
  rw [show ((3 : ℝ) / 4) = ((4 : ℝ) / 3)⁻¹ by norm_num, Real.log_inv] at h
  linarith

/-- Lower log bound: `log(3/2) ≥ 1/3`, from `log x ≤ x - 1` at `2/3`. -/
theorem log_32_ge : (1 : ℝ) / 3 ≤ Real.log (3 / 2) := by
  have h := Real.log_le_sub_one_of_pos (show (0 : ℝ) < 2 / 3 by norm_num)
  rw [show ((2 : ℝ) / 3) = ((3 : ℝ) / 2)⁻¹ by norm_num, Real.log_inv] at h
  linarith

/-- Cosine similarity of query and `["aa"]` in the three-document corpus. -/
theorem cos2_aa_val :
    Hybrid.cosineSim [["aa", "bb", "aa bb"], ["aa"], ["bb"]]
      ["aa", "bb", "aa bb"] ["aa"] =
      (1 + Real.log (4 / 3)) /
        Real.sqrt ((1 + Real.log 2) ^ 2 +
          2 * (1 + Real.log (4 / 3)) ^ 2) := by
  have hL : (0 : ℝ) < 1 + Real.log (4 / 3) := by
    have := log_43_ge
    linarith
  unfold Hybrid.cosineSim
  rw [dot2_qq, dot2_qa, dot2_aa, Real.sqrt_sq (le_of_lt hL)]
  rw [sq (1 + Real.log (4 / 3))]
  rw [mul_div_mul_right _ _ (ne_of_gt hL)]

/-- Cosine similarity of query and `["bb"]` in the three-document corpus:
equal to the `["aa"]` one by symmetry of the idf values. -/
theorem cos2_bb_val :
    Hybrid.cosineSim [["aa", "bb", "aa bb"], ["aa"], ["bb"]]
      ["aa", "bb", "aa bb"] ["bb"] =
      (1 + Real.log (4 / 3)) /
        Real.sqrt ((1 + Real.log 2) ^ 2 +
          2 * (1 + Real.log (4 / 3)) ^ 2) := by
  have hL : (0 : ℝ) < 1 + Real.log (4 / 3) := by
    have := log_43_ge
    linarith
  unfold Hybrid.cosineSim
  rw [dot2_qq, dot2_qb, dot2_bb, Real.sqrt_sq (le_of_lt hL)]
  rw [sq (1 + Real.log (4 / 3))]
  rw [mul_div_mul_right _ _ (ne_of_gt hL)]

/-- Cosine similarity of query and `["aa"]` in the two-document corpus. -/
theorem cos1_aa_val :
    Hybrid.cosineSim [["aa", "bb", "aa bb"], ["aa"]]
      ["aa", "bb", "aa bb"] ["aa"] =
      1 / Real.sqrt (1 + 2 * (1 + Real.log (3 / 2)) ^ 2) := by
  unfold Hybrid.cosineSim
  rw [dot1_qq, dot1_qa, dot1_aa, Real.sqrt_one, mul_one]

/-- The two-document similarity is below one half. -/
theorem cos1_lt_half :
    1 / Real.sqrt (1 + 2 * (1 + Real.log (3 / 2)) ^ 2) < 1 / 2 := by
  have hK := log_32_ge
  have hs : (2 : ℝ) < Real.sqrt (1 + 2 * (1 + Real.log (3 / 2)) ^ 2) := by
    rw [Real.lt_sqrt (by norm_num)]
    nlinarith
  exact one_div_lt_one_div_of_lt (by norm_num) hs

/-- The three-document similarity is above one half. -/
theorem cos2_gt_half :
    1 / 2 < (1 + Real.log (4 / 3)) /
      Real.sqrt ((1 + Real.log 2) ^ 2 + 2 * (1 + Real.log (4 / 3)) ^ 2) := by
  have hL := log_43_ge
  have hM := Real.log_two_lt_d9
  have hM0 := Real.log_nonneg (by norm_num : (1 : ℝ) ≤ 2)
  have hQpos : (0 : ℝ) < (1 + Real.log 2) ^ 2 +
      2 * (1 + Real.log (4 / 3)) ^ 2 := by nlinarith
  have hs : Real.sqrt ((1 + Real.log 2) ^ 2 +
      2 * (1 + Real.log (4 / 3)) ^ 2) < 2 * (1 + Real.log (4 / 3)) := by
    rw [Real.sqrt_lt' (by linarith)]
    nlinarith
  rw [lt_div_iff (Real.sqrt_pos.mpr hQpos)]
  nlinarith [Real.sqrt_nonneg ((1 + Real.log 2) ^ 2 +
    2 * (1 + Real.log (4 / 3)) ^ 2)]

/-- Fitting the vectorizer over the full two-program batch. -/
theorem vec_pair_eval :
    Hybrid.vectorizeScores textUser [programAA, programBB] =
      Except.ok
        [100 * Hybrid.cosineSim [["aa", "bb", "aa bb"], ["aa"], ["bb"]]
          ["aa", "bb", "aa bb"] ["aa"],
        100 * Hybrid.cosineSim [["aa", "bb", "aa bb"], ["aa"], ["bb"]]
          ["aa", "bb", "aa bb"] ["bb"]] := by
  have h1 : Hybrid.docTerms (Hybrid.createUserQuery textUser) =
      ["aa", "bb", "aa bb"] := by decide
  have h2 : Hybrid.corpusDocs textUser [programAA, programBB] =
      [["aa", "bb", "aa bb"], ["aa"], ["bb"]] := by decide
  have h3 : [programAA, programBB].map
      (fun p => Hybrid.docTerms (Hybrid.createProgramText p)) =
      [["aa"], ["bb"]] := by decide
  have hv : ¬Hybrid.vocabOf [["aa", "bb", "aa bb"], ["aa"], ["bb"]] =
      [] := by decide
  unfold Hybrid.vectorizeScores
  simp only [h1, h2, h3]
  rw [if_neg hv]
  rfl

/-- Fitting the vectorizer over the singleton corpus of `explain_score`. -/
theorem vec_single_eval :
    Hybrid.vectorizeScores textUser [programAA] =
      Except.ok
        [100 * Hybrid.cosineSim [["aa", "bb", "aa bb"], ["aa"]]
          ["aa", "bb", "aa bb"] ["aa"]] := by
  have h1 : Hybrid.docTerms (Hybrid.createUserQuery textUser) =
      ["aa", "bb", "aa bb"] := by decide
  have h2 : Hybrid.corpusDocs textUser [programAA] =
      [["aa", "bb", "aa bb"], ["aa"]] := by decide
  have h3 : [programAA].map
      (fun p => Hybrid.docTerms (Hybrid.createProgramText p)) =
      [["aa"]] := by decide
  have hv : ¬Hybrid.vocabOf [["aa", "bb", "aa bb"], ["aa"]] = [] := by
    decide
  unfold Hybrid.vectorizeScores
  simp only [h1, h2, h3]
  rw [if_neg hv]
  rfl

/-- Batch TF-IDF scores of the two text programs. -/
theorem tfidf_pair_eval :
    Hybrid.calculateTfidfScore textUser [programAA, programBB] =
      [100 * Hybrid.cosineSim [["aa", "bb", "aa bb"], ["aa"], ["bb"]]
        ["aa", "bb", "aa bb"] ["aa"],
      100 * Hybrid.cosineSim [["aa", "bb", "aa bb"], ["aa"], ["bb"]]
        ["aa", "bb", "aa bb"] ["bb"]] := by
  unfold Hybrid.calculateTfidfScore
  rw [if_neg (by simp : ¬([programAA, programBB] : List Program) = [])]
  rw [vec_pair_eval]

/-- Single-program TF-IDF score as computed by the explain path. -/
theorem tfidf_single_eval :
    Hybrid.calculateTfidfScore textUser [programAA] =
      [100 * Hybrid.cosineSim [["aa", "bb", "aa bb"], ["aa"]]
        ["aa", "bb", "aa bb"] ["aa"]] := by
  unfold Hybrid.calculateTfidfScore
  rw [if_neg (by simp : ¬([programAA] : List Program) = [])]
  rw [vec_single_eval]

/-- No rule term fires between `textUser` and `programAA`. -/
theorem text_rule_zero_aa :
    (Hybrid.calculateScore textUser programAA).1 = 0 := by
  simp [Hybrid.calculateScore, Hybrid.calculateDepartmentScore,
    Hybrid.calculateGradeScore, Hybrid.calculateInterestScore,
    textUser, programAA]
  norm_num

/-- No rule term fires between `textUser` and `programBB`. -/
theorem text_rule_zero_bb :
    (Hybrid.calculateScore textUser programBB).1 = 0 := by
  simp [Hybrid.calculateScore, Hybrid.calculateDepartmentScore,
    Hybrid.calculateGradeScore, Hybrid.calculateInterestScore,
    textUser, programBB]
  norm_num

/-- Hybrid total of `programAA` under the batch corpus. -/
theorem text_hybrid_score_aa :
    Hybrid.calculateHybridScore textUser programAA
      (100 * Hybrid.cosineSim [["aa", "bb", "aa bb"], ["aa"], ["bb"]]
        ["aa", "bb", "aa bb"] ["aa"]) =
      40 * ((1 + Real.log (4 / 3)) /
        Real.sqrt ((1 + Real.log 2) ^ 2 +
          2 * (1 + Real.log (4 / 3)) ^ 2)) := by
  unfold Hybrid.calculateHybridScore
  rw [text_rule_zero_aa, cos2_aa_val]
  norm_num [Hybrid.WEIGHT_RULE_BASED, Hybrid.WEIGHT_TF_IDF]
  ring

/-- Hybrid total of `programBB` under the batch corpus. -/
theorem text_hybrid_score_bb :
    Hybrid.calculateHybridScore textUser programBB
      (100 * Hybrid.cosineSim [["aa", "bb", "aa bb"], ["aa"], ["bb"]]
        ["aa", "bb", "aa bb"] ["bb"]) =
      40 * ((1 + Real.log (4 / 3)) /
        Real.sqrt ((1 + Real.log 2) ^ 2 +
          2 * (1 + Real.log (4 / 3)) ^ 2)) := by
  unfold Hybrid.calculateHybridScore
  rw [text_rule_zero_bb, cos2_bb_val]
  norm_num [Hybrid.WEIGHT_RULE_BASED, Hybrid.WEIGHT_TF_IDF]
  ring

/-- The hybrid scoring loop on the text fixtures with `minScore = 0`. -/
theorem text_scored :
    Hybrid.scoredResults textUser [programAA, programBB] 0 =
      [⟨programAA, 40 * ((1 + Real.log (4 / 3)) /
          Real.sqrt ((1 + Real.log 2) ^ 2 +
            2 * (1 + Real.log (4 / 3)) ^ 2))⟩,
        ⟨programBB, 40 * ((1 + Real.log (4 / 3)) /
          Real.sqrt ((1 + Real.log 2) ^ 2 +
            2 * (1 + Real.log (4 / 3)) ^ 2))⟩] := by
  unfold Hybrid.scoredResults
  rw [tfidf_pair_eval]
  show List.filterMap _
    [(programAA,
      100 * Hybrid.cosineSim [["aa", "bb", "aa bb"], ["aa"], ["bb"]]
        ["aa", "bb", "aa bb"] ["aa"]),
     (programBB,
      100 * Hybrid.cosineSim [["aa", "bb", "aa bb"], ["aa"], ["bb"]]
        ["aa", "bb", "aa bb"] ["bb"])] = _
  rw [List.filterMap_cons, List.filterMap_cons, List.filterMap_nil]
  simp only [text_hybrid_score_aa, text_hybrid_score_bb]
  simp only [if_neg (show ¬(40 * ((1 + Real.log (4 / 3)) /
      Real.sqrt ((1 + Real.log 2) ^ 2 +
        2 * (1 + Real.log (4 / 3)) ^ 2)) < (0 : ℝ)) by
    have := cos2_gt_half
    linarith)]

/-- The full hybrid recommendation on the text fixtures: both programs are
returned, in input order, with the batch-corpus score. -/
theorem text_recommend :
    Hybrid.recommend textUser [programAA, programBB] 5 false 0 0 =
      [⟨programAA, 40 * ((1 + Real.log (4 / 3)) /
          Real.sqrt ((1 + Real.log 2) ^ 2 +
            2 * (1 + Real.log (4 / 3)) ^ 2))⟩,
        ⟨programBB, 40 * ((1 + Real.log (4 / 3)) /
          Real.sqrt ((1 + Real.log 2) ^ 2 +
            2 * (1 + Real.log (4 / 3)) ^ 2))⟩] := by
  unfold Hybrid.recommend
  have hof : Hybrid.openFiltered [programAA, programBB] false 0 =
      [programAA, programBB] := by decide
  rw [hof]
  rw [if_neg (by simp : ¬([programAA, programBB] : List Program) = [])]
  rw [text_scored]
  have hsorted : List.Pairwise (fun a b => resultLE a b = true)
      [(⟨programAA, 40 * ((1 + Real.log (4 / 3)) /
          Real.sqrt ((1 + Real.log 2) ^ 2 +
            2 * (1 + Real.log (4 / 3)) ^ 2))⟩ : RecommendationResult),
        ⟨programBB, 40 * ((1 + Real.log (4 / 3)) /
          Real.sqrt ((1 + Real.log 2) ^ 2 +
            2 * (1 + Real.log (4 / 3)) ^ 2))⟩] := by
    refine List.pairwise_cons.mpr ⟨?_, List.pairwise_singleton _ _⟩
    intro b hb
    rw [List.mem_singleton] at hb
    subst hb
    exact decide_eq_true (le_refl _)
  rw [List.mergeSort_of_sorted hsorted]
  exact List.take_of_length_le (by simp)

/-- The score `recommend` assigns to program 1 (= `programAA`). -/
theorem text_assigned :
    Hybrid.assignedScore
      (Hybrid.recommend textUser [programAA, programBB] 5 false 0 0) 1 =
      some (40 * ((1 + Real.log (4 / 3)) /
        Real.sqrt ((1 + Real.log 2) ^ 2 +
          2 * (1 + Real.log (4 / 3)) ^ 2))) := by
  rw [text_recommend]
  rfl

/-- The explain path's total for `programAA`, using the two-document
corpus. -/
theorem text_explain :
    (Hybrid.explainScore textUser programAA).totalScore =
      40 * (1 / Real.sqrt (1 + 2 * (1 + Real.log (3 / 2)) ^ 2)) := by
  have hd : Hybrid.calculateDepartmentScore textUser programAA =
      (0.0, "") := by
    simp [Hybrid.calculateDepartmentScore, textUser, programAA]
  have hg : Hybrid.calculateGradeScore textUser programAA = (0.0, "") := by
    simp [Hybrid.calculateGradeScore, textUser, programAA]
  have hi : Hybrid.calculateInterestScore textUser programAA =
      (0.0, []) := by
    simp [Hybrid.calculateInterestScore, textUser, programAA]
  unfold Hybrid.explainScore
  rw [hd, hg, hi, tfidf_single_eval]
  simp only [List.headD_cons]
  rw [cos1_aa_val]
  norm_num [Hybrid.WEIGHT_RULE_BASED, Hybrid.WEIGHT_TF_IDF]
  ring

/-- C1 counterexample: for `textUser` and the two-program candidate list,
`programAA` survives every filter of `recommend` (its assigned score is
present), yet `explain_score(user, programAA).total_score` differs from the
score `recommend` assigns to it — the explain path refits TF-IDF on the
two-document corpus `{query, program}` (total `40/√(1 + 2(1 + log 3/2)²)` <
20) while `recommend` fits the full three-document batch corpus (total
`40(1 + log 4/3)/√((1 + log 2)² + 2(1 + log 4/3)²)` > 20), a gap far beyond
floating-point tolerance. -/
theorem explain_recommend_mismatch :
    (Hybrid.assignedScore
      (Hybrid.recommend textUser [programAA, programBB] 5 false 0 0)
      1).isSome = true ∧
    Hybrid.assignedScore
      (Hybrid.recommend textUser [programAA, programBB] 5 false 0 0) 1 ≠
      some (Hybrid.explainScore textUser programAA).totalScore := by
  constructor
  · rw [text_assigned]
    rfl
  · rw [text_assigned, text_explain]
    intro h
    have heq := Option.some_injective _ h
    have h1 := cos1_lt_half
    have h2 := cos2_gt_half
    linarith

/-- C1 amended: `explain_score(user, program).total_score` equals the score
`recommend` assigns to that program when the program is the only candidate
surviving the open filter (then both paths fit the same two-document
corpus), the total passes `minScore`, and `limit ≥ 1`; with more than one
surviving candidate the two paths fit different corpora and the totals
generally differ. -/
theorem explain_matches_single_candidate (u : User) (p : Program)
    (lim : Nat) (ic : Bool) (ms : ℝ) (today : Date)
    (hof : Hybrid.openFiltered [p] ic today = [p])
    (hms : ms ≤ (Hybrid.explainScore u p).totalScore)
    (hlim : 1 ≤ lim) :
    Hybrid.recommend u [p] lim ic ms today =
      [⟨p, (Hybrid.explainScore u p).totalScore⟩] := by
  have hlen := tfidf_length u [p]
  rcases hl : Hybrid.calculateTfidfScore u [p] with _ | ⟨t, ts⟩
  · rw [hl] at hlen
    simp at hlen
  · rw [hl] at hlen
    have hts : ts = [] := by
      simpa using hlen
    subst hts
    have hhead : (Hybrid.calculateTfidfScore u [p]).headD 0.0 = t := by
      rw [hl]
      rfl
    have htotal : (Hybrid.explainScore u p).totalScore =
        Hybrid.calculateHybridScore u p t := by
      unfold Hybrid.explainScore Hybrid.calculateHybridScore
        Hybrid.calculateScore
      rw [hhead]
    unfold Hybrid.recommend
    rw [hof]
    rw [if_neg (by simp : ¬([p] : List Program) = [])]
    have hscored : Hybrid.scoredResults u [p] ms =
        [⟨p, (Hybrid.explainScore u p).totalScore⟩] := by
      unfold Hybrid.scoredResults
      rw [hl]
      show List.filterMap _ [(p, t)] = _
      rw [List.filterMap_cons, List.filterMap_nil]
      simp only
      rw [if_neg (show ¬Hybrid.calculateHybridScore u p t < ms by
        rw [← htotal]
        exact not_lt.mpr hms)]
      rw [← htotal]
    rw [hscored, List.mergeSort_singleton]
    exact List.take_of_length_le (by simpa using hlim)

/-- Witness for the amended C1 at a concrete single-candidate input, where
the explain total is 42. -/
theorem explain_matches_single_candidate_witness :
    Hybrid.recommend sampleUser [openProgram] 5 false 20 0 =
      [⟨openProgram,
        (Hybrid.explainScore sampleUser openProgram).totalScore⟩] := by
  have htotal : (Hybrid.explainScore sampleUser openProgram).totalScore =
      42 := by
    have hd : Hybrid.calculateDepartmentScore sampleUser openProgram =
        (Hybrid.WEIGHT_DEPARTMENT_EXACT, "학과 일치: x") := by
      simp [Hybrid.calculateDepartmentScore, sampleUser, openProgram]
    have hg : Hybrid.calculateGradeScore sampleUser openProgram =
        (Hybrid.WEIGHT_GRADE_EXACT, "학년 일치: 1학년") := by
      simp [Hybrid.calculateGradeScore, sampleUser, openProgram,
        RuleBased.getGradeName]
    have hi : Hybrid.calculateInterestScore sampleUser openProgram =
        (0.0, []) := by
      simp [Hybrid.calculateInterestScore, sampleUser, openProgram]
    unfold Hybrid.explainScore
    rw [hd, hg, hi, tfidf_degenerate_single]
    simp only [List.headD_cons]
    norm_num [Hybrid.WEIGHT_DEPARTMENT_EXACT, Hybrid.WEIGHT_GRADE_EXACT,
      Hybrid.WEIGHT_RULE_BASED, Hybrid.WEIGHT_TF_IDF]
  exact explain_matches_single_candidate sampleUser openProgram 5 false 20 0
    (by decide) (by rw [htotal]; norm_num) (by norm_num)
